import Mathlib

/-!
Verification of the orchestration core of ArchProbe (`src/apps/archprobe/env.hpp`).

The structured-value store (`json::JsonValue`) is modelled by an inductive
`Json` whose objects are association lists with first-occurrence lookup and
update-first-occurrence insertion, matching `std::map` lookup/`operator[]`
semantics for the accesses the code performs.  The `Environment` class is
modelled by a record holding the fields the claims touch: the started-aspect
set, the current-aspect cursor, and the two documents (`cfg_.obj` and
`report_.obj` are the root objects, modelled directly as association lists).
Member functions that mutate the environment return the updated record.
-/

namespace ArchProbe

/-- Model of `json::JsonValue`: nested structured values. Arrays are omitted;
no code path relevant here constructs or inspects them. -/
inductive Json where
  | null : Json
  | bool (b : Bool) : Json
  | num (q : ℚ) : Json
  | str (s : String) : Json
  | obj (fields : List (String × Json)) : Json

/-- `JsonValue::is_num()`. -/
def Json.is_num : Json → Bool
  | .num _ => true
  | _ => false

/-- `JsonValue::is_obj()`. -/
def Json.is_obj : Json → Bool
  | .obj _ => true
  | _ => false

/-- The `.obj` member access: the field map of an object value (empty for
non-objects; the code only reads `.obj` of values it has just healed to
objects). -/
def Json.objFields : Json → List (String × Json)
  | .obj fs => fs
  | _ => []

/-- The numeric cast `(T)v` applied to a numeric `JsonValue`. -/
def Json.asNum : Json → ℚ
  | .num q => q
  | _ => 0

/-- `map.find(key)` (first occurrence). -/
def lookupKey : List (String × Json) → String → Option Json
  | [], _ => none
  | (k, v) :: rest, key => if k = key then some v else lookupKey rest key

/-- `map[key] = v`: update the first occurrence of `key`, or append. -/
def objSet : List (String × Json) → String → Json → List (String × Json)
  | [], key, v => [(key, v)]
  | (k, w) :: rest, key, v =>
      if k = key then (k, v) :: rest else (k, w) :: objSet rest key v

/-- Lookup of `doc[aspect].obj[key]` (none if the aspect entry is absent or
not an object). -/
def lookupAspectKey (doc : List (String × Json)) (aspect key : String) :
    Option Json :=
  match lookupKey doc aspect with
  | some v => lookupKey v.objFields key
  | none => none

@[simp]
theorem lookupKey_objSet_self (fs : List (String × Json)) (k : String) (v : Json) :
    lookupKey (objSet fs k v) k = some v := by
  induction fs with
  | nil => simp [objSet, lookupKey]
  | cons hd tl ih =>
    obtain ⟨k', w⟩ := hd
    by_cases h : k' = k
    · simp [objSet, lookupKey, h]
    · simp [objSet, lookupKey, h, ih]

theorem lookupKey_objSet_ne (fs : List (String × Json)) (k k' : String) (v : Json)
    (h : k' ≠ k) : lookupKey (objSet fs k v) k' = lookupKey fs k' := by
  have hk : ¬(k = k') := fun hh => h hh.symm
  induction fs with
  | nil => simp [objSet, lookupKey, hk]
  | cons hd tl ih =>
    obtain ⟨k₀, w⟩ := hd
    by_cases h0 : k₀ = k
    · subst h0
      simp [objSet, lookupKey, hk]
    · simp only [objSet, if_neg h0, lookupKey]
      by_cases h1 : k₀ = k'
      · simp [h1]
      · simp [h1, ih]

/-- Model of `archprobe::Environment` restricted to the state the claims
touch.  `cfg` and `report` are the root objects `cfg_.obj` and
`report_.obj`; device handles, tables and paths are omitted. -/
structure Environment where
  aspects_started : List String
  cur_aspect : String
  cfg : List (String × Json)
  report : List (String × Json)

/-- Errors of the spec's taxonomy raised by the modelled operations. -/
inductive EnvError where
  | duplicateAspect
  | missingDependency
  | missingReport
  | calibration
  deriving DecidableEq

/-- `Environment::get_aspect_cfg` (env.hpp:105-113): find the aspect entry in
the configuration document; if absent or not an object, replace it in place
by an empty object; return the (possibly healed) entry. -/
def get_aspect_cfg (env : Environment) (aspect : String) : Environment × Json :=
  match lookupKey env.cfg aspect with
  | some v =>
      if v.is_obj then (env, v)
      else ({ env with cfg := objSet env.cfg aspect (Json.obj []) }, Json.obj [])
  | none => ({ env with cfg := objSet env.cfg aspect (Json.obj []) }, Json.obj [])

/-- `Environment::get_cfg` (env.hpp:114-116). -/
def get_cfg (env : Environment) : Environment × Json :=
  get_aspect_cfg env env.cur_aspect

/-- `Environment::cfg_num` (env.hpp:117-126).  The guard
`cfg.obj.find(name) == cfg_.obj.end()` compares iterators of two distinct
maps (the aspect sub-object vs the root object) and is therefore never true;
the deciding test is `!cfg.obj[name].is_num()`, where `operator[]` inserts a
null value when the key is absent — that null is immediately overwritten by
the default on the same branch, so the net effect is: absent or non-numeric
key means the default is stored and returned, otherwise the stored value is
returned. -/
def cfg_num (env : Environment) (name : String) (d : ℚ) : Environment × ℚ :=
  let r := get_cfg env
  let env1 := r.1
  let fs := r.2.objFields
  match lookupKey fs name with
  | some v =>
      if v.is_num then (env1, v.asNum)
      else
        ({ env1 with
            cfg := objSet env1.cfg env.cur_aspect
              (Json.obj (objSet fs name (Json.num d))) }, d)
  | none =>
      ({ env1 with
          cfg := objSet env1.cfg env.cur_aspect
            (Json.obj (objSet fs name (Json.num d))) }, d)

/-- `Environment::get_aspect_report` (env.hpp:131-139): same self-healing
read as `get_aspect_cfg`, on the report document. -/
def get_aspect_report (env : Environment) (aspect : String) :
    Environment × Json :=
  match lookupKey env.report aspect with
  | some v =>
      if v.is_obj then (env, v)
      else ({ env with report := objSet env.report aspect (Json.obj []) },
            Json.obj [])
  | none => ({ env with report := objSet env.report aspect (Json.obj []) },
             Json.obj [])

/-- `Environment::get_report` (env.hpp:128-130). -/
def get_report (env : Environment) : Environment × Json :=
  get_aspect_report env env.cur_aspect

/-- `Environment::try_get_aspect_report` (env.hpp:144-160): self-healing read
of the aspect sub-document, then lookup of `name`; on hit the value is
written through `out` and `true` returned, on miss `out` is untouched and
`false` returned. -/
def try_get_aspect_report (env : Environment) (aspect name : String)
    (out : Json) : Environment × Bool × Json :=
  let r := get_aspect_report env aspect
  match lookupKey r.2.objFields name with
  | some v => (r.1, true, v)
  | none => (r.1, false, out)

/-- `Environment::must_get_aspect_report` (env.hpp:161-170): `try_get` into a
default-constructed `out`, asserting success (the spec's
`MissingReportError`). -/
def must_get_aspect_report (env : Environment) (aspect name : String) :
    Except EnvError (Environment × Json) :=
  let r := try_get_aspect_report env aspect name Json.null
  if r.2.1 then Except.ok (r.1, r.2.2) else Except.error EnvError.missingReport

/-- `Environment::report_value` (env.hpp:171-176): self-healing read of the
current aspect's report sub-document, then `report.obj[name] = value`. -/
def report_value (env : Environment) (name : String) (value : Json) :
    Environment :=
  let r := get_report env
  { r.1 with
      report := objSet r.1.report env.cur_aspect
        (Json.obj (objSet r.2.objFields name value)) }

/-- `Environment::clear_aspect_report` (env.hpp:178-183): a no-op for the
empty aspect name; otherwise `get_aspect_report(aspect) = JsonObject {}`
resets the (possibly just-healed) entry to the empty object. -/
def clear_aspect_report (env : Environment) (aspect : String) : Environment :=
  if aspect = "" then env
  else
    let env1 := (get_aspect_report env aspect).1
    { env1 with report := objSet env1.report aspect (Json.obj []) }

/-- Modelled from the spec: the body of `Environment::report_started` is not
in the repository (env.hpp:88 only declares it).  §4.1: records `name` in the
started-set, sets it as the current aspect cursor, and fails with
`DuplicateAspectError` if the aspect was already started in this run. -/
def report_started (env : Environment) (name : String) :
    Except EnvError Environment :=
  if name ∈ env.aspects_started then Except.error EnvError.duplicateAspect
  else Except.ok { env with
    aspects_started := name :: env.aspects_started
    cur_aspect := name }

/-- The Report Document check of `report_started_lazy`: whether a complete
(`"Done": true`) report for `name` already exists. -/
def doneFlag (doc : List (String × Json)) (name : String) : Bool :=
  match lookupAspectKey doc name "Done" with
  | some (Json.bool b) => b
  | _ => false

/-- Modelled from the spec: the body of `Environment::report_started_lazy` is
not in the repository (env.hpp:89-92 only declares it, with a comment).
§4.1: same transition as `report_started`, but checks the Report Document
for `name`; the returned flag is true (skip) exactly when a complete
(`"Done": true`) report already exists, and false (must run) otherwise. -/
def report_started_lazy (env : Environment) (name : String) :
    Except EnvError (Environment × Bool) :=
  (report_started env name).map (fun env' => (env', doneFlag env.report name))

/-- Modelled from the spec: the body of `Environment::report_ready` is not in
the repository (env.hpp:93 only declares it).  §4.1: finalizes the current
aspect by writing `"Done": done` into its report sub-document (the write of
`report_value`), without clearing the current-aspect cursor. -/
def report_ready (env : Environment) (done : Bool) : Environment :=
  report_value env "Done" (Json.bool done)

/-- Modelled from the spec: the body of `Environment::check_dep` is not in
the repository (env.hpp:94 only declares it).  §4.1: fails with
`MissingDependencyError` if `name` is not in the started-set; otherwise a
no-op. -/
def check_dep (env : Environment) (name : String) :
    Except EnvError Environment :=
  if name ∈ env.aspects_started then Except.ok env
  else Except.error EnvError.missingDependency

/-- Modelled from the spec: the scale-up step of `ensure_min_niter` —
a multiplicative factor estimated from the ratio `min_time / elapsed`,
rounded up. -/
def scale_up (niter : ℕ) (min_time elapsed : ℚ) : ℕ :=
  (⌈(niter : ℚ) * min_time / elapsed⌉).toNat

/-- Modelled from the spec: the retry cap of `ensure_min_niter` (§4.3 and
§9 leave the constant open; any fixed positive bound realises the spec). -/
def max_calib_retry : ℕ := 100

/-- Modelled from the spec: the loop of `Environment::ensure_min_niter`,
whose body is not in the repository (env.hpp:185-188 only declares it).
§4.3: invoke `run` at the current iteration count; if the elapsed time meets
`min_time` stop, otherwise scale the count up from the ratio and retry, with
the number of retries capped; on exhaustion fail with `CalibrationError`. -/
def ensure_min_niter_go (min_time : ℚ) (run : ℕ → ℚ) :
    ℕ → ℕ → Except EnvError ℕ
  | 0, _ => Except.error EnvError.calibration
  | fuel + 1, niter =>
      let elapsed := run niter
      if min_time ≤ elapsed then Except.ok niter
      else ensure_min_niter_go min_time run fuel (scale_up niter min_time elapsed)

/-- Modelled from the spec: `Environment::ensure_min_niter` — run the capped
calibration loop starting from the caller's iteration count; the returned
count is the in-place-updated `niter`. -/
def ensure_min_niter (min_time : ℚ) (niter : ℕ) (run : ℕ → ℚ) :
    Except EnvError ℕ :=
  ensure_min_niter_go min_time run max_calib_retry niter

/-! ### Case lemmas for the self-healing getters -/

theorem lookupAspectKey_of_obj {doc : List (String × Json)} {aspect : String}
    {fs : List (String × Json)} (h : lookupKey doc aspect = some (Json.obj fs))
    (key : String) : lookupAspectKey doc aspect key = lookupKey fs key := by
  simp [lookupAspectKey, h, Json.objFields]

theorem get_aspect_cfg_of_obj {env : Environment} {aspect : String}
    {fs : List (String × Json)}
    (h : lookupKey env.cfg aspect = some (Json.obj fs)) :
    get_aspect_cfg env aspect = (env, Json.obj fs) := by
  simp [get_aspect_cfg, h, Json.is_obj]

theorem get_aspect_cfg_heal {env : Environment} {aspect : String}
    (h : ∀ fs, lookupKey env.cfg aspect ≠ some (Json.obj fs)) :
    get_aspect_cfg env aspect =
      ({ env with cfg := objSet env.cfg aspect (Json.obj []) }, Json.obj []) := by
  unfold get_aspect_cfg
  cases hv : lookupKey env.cfg aspect with
  | none => rfl
  | some v =>
    have hobj : v.is_obj = false := by
      cases v <;> first | rfl | exact absurd hv (h _)
    simp [hobj]

theorem get_aspect_report_of_obj {env : Environment} {aspect : String}
    {fs : List (String × Json)}
    (h : lookupKey env.report aspect = some (Json.obj fs)) :
    get_aspect_report env aspect = (env, Json.obj fs) := by
  simp [get_aspect_report, h, Json.is_obj]

theorem get_aspect_report_heal {env : Environment} {aspect : String}
    (h : ∀ fs, lookupKey env.report aspect ≠ some (Json.obj fs)) :
    get_aspect_report env aspect =
      ({ env with report := objSet env.report aspect (Json.obj []) },
       Json.obj []) := by
  unfold get_aspect_report
  cases hv : lookupKey env.report aspect with
  | none => rfl
  | some v =>
    have hobj : v.is_obj = false := by
      cases v <;> first | rfl | exact absurd hv (h _)
    simp [hobj]

/-- The value returned by the self-healing report read has exactly the keys
of the (pre-state) aspect sub-document. -/
theorem get_aspect_report_snd_lookup (env : Environment) (aspect name : String) :
    lookupKey (get_aspect_report env aspect).2.objFields name =
      lookupAspectKey env.report aspect name := by
  by_cases h : ∃ fs, lookupKey env.report aspect = some (Json.obj fs)
  · obtain ⟨fs, hfs⟩ := h
    rw [get_aspect_report_of_obj hfs, lookupAspectKey_of_obj hfs]
    rfl
  · push_neg at h
    rw [get_aspect_report_heal h]
    unfold lookupAspectKey
    cases hv : lookupKey env.report aspect with
    | none => rfl
    | some v => cases v <;> first | rfl | exact absurd hv (h _)

/-- The self-healing report read touches no state but the aspect's own
entry in the report document. -/
theorem get_aspect_report_fst_frame (env : Environment) (aspect : String) :
    (get_aspect_report env aspect).1.cfg = env.cfg
    ∧ (get_aspect_report env aspect).1.cur_aspect = env.cur_aspect
    ∧ (get_aspect_report env aspect).1.aspects_started = env.aspects_started
    ∧ ∀ a, a ≠ aspect →
        lookupKey (get_aspect_report env aspect).1.report a =
          lookupKey env.report a := by
  by_cases h : ∃ fs, lookupKey env.report aspect = some (Json.obj fs)
  · obtain ⟨fs, hfs⟩ := h
    rw [get_aspect_report_of_obj hfs]
    exact ⟨rfl, rfl, rfl, fun a _ => rfl⟩
  · push_neg at h
    rw [get_aspect_report_heal h]
    exact ⟨rfl, rfl, rfl, fun a ha => lookupKey_objSet_ne _ _ _ _ ha⟩

/-! ### Behaviour of `cfg_num` -/

/-- `cfg_num` with its let-bindings flattened. -/
theorem cfg_num_eq (env : Environment) (name : String) (d : ℚ) :
    cfg_num env name d =
      match lookupKey (get_cfg env).2.objFields name with
      | some v =>
          if v.is_num then ((get_cfg env).1, v.asNum)
          else
            ({ (get_cfg env).1 with
                cfg := objSet (get_cfg env).1.cfg env.cur_aspect
                  (Json.obj (objSet (get_cfg env).2.objFields name
                    (Json.num d))) }, d)
      | none =>
          ({ (get_cfg env).1 with
              cfg := objSet (get_cfg env).1.cfg env.cur_aspect
                (Json.obj (objSet (get_cfg env).2.objFields name
                  (Json.num d))) }, d) := rfl

/-- When the key is present in the (object) aspect sub-document and numeric,
`cfg_num` returns the stored value and changes nothing. -/
theorem cfg_num_of_num {env : Environment} {name : String}
    {fs : List (String × Json)} {v : Json}
    (hw : lookupKey env.cfg env.cur_aspect = some (Json.obj fs))
    (hv : lookupKey fs name = some v) (hn : v.is_num = true) (d : ℚ) :
    cfg_num env name d = (env, v.asNum) := by
  have hg : get_cfg env = (env, Json.obj fs) := get_aspect_cfg_of_obj hw
  rw [cfg_num_eq, hg]
  simp [Json.objFields, hv, hn]

/-- When the key is absent from the aspect sub-document or holds a
non-numeric value, `cfg_num` stores the default into the (healed) sub-object
and returns it. -/
theorem cfg_num_heal {env : Environment} {name : String}
    (h : ∀ v, lookupAspectKey env.cfg env.cur_aspect name = some v →
      v.is_num = false) (d : ℚ) :
    cfg_num env name d =
      ({ (get_cfg env).1 with
          cfg := objSet (get_cfg env).1.cfg env.cur_aspect
            (Json.obj (objSet (get_cfg env).2.objFields name (Json.num d))) },
       d) := by
  rw [cfg_num_eq]
  by_cases hobj : ∃ fs, lookupKey env.cfg env.cur_aspect = some (Json.obj fs)
  · obtain ⟨fs, hfs⟩ := hobj
    have hs : (get_cfg env).2.objFields = fs := by
      unfold get_cfg
      rw [get_aspect_cfg_of_obj hfs]
      rfl
    rw [hs]
    cases hk : lookupKey fs name with
    | none => rfl
    | some v =>
      have hvn : v.is_num = false := h v (by rw [lookupAspectKey_of_obj hfs, hk])
      simp [hvn]
  · push_neg at hobj
    have hs : (get_cfg env).2.objFields = ([] : List (String × Json)) := by
      unfold get_cfg
      rw [get_aspect_cfg_heal hobj]
      rfl
    rw [hs]
    rfl

/-- A hit through `lookupAspectKey` forces the aspect entry to be an object
holding the key. -/
theorem lookupAspectKey_some {doc : List (String × Json)} {aspect key : String}
    {v : Json} (h : lookupAspectKey doc aspect key = some v) :
    ∃ fs, lookupKey doc aspect = some (Json.obj fs)
      ∧ lookupKey fs key = some v := by
  unfold lookupAspectKey at h
  cases hw : lookupKey doc aspect with
  | none => rw [hw] at h; cases h
  | some w =>
    rw [hw] at h
    cases w
    case obj fs => exact ⟨fs, rfl, h⟩
    all_goals simp [Json.objFields, lookupKey] at h

/-- The self-healing configuration read touches no state but the aspect's
own entry in the configuration document. -/
theorem get_aspect_cfg_fst_frame (env : Environment) (aspect : String) :
    (get_aspect_cfg env aspect).1.report = env.report
    ∧ (get_aspect_cfg env aspect).1.cur_aspect = env.cur_aspect
    ∧ (get_aspect_cfg env aspect).1.aspects_started = env.aspects_started
    ∧ ∀ a, a ≠ aspect →
        lookupKey (get_aspect_cfg env aspect).1.cfg a = lookupKey env.cfg a := by
  by_cases h : ∃ fs, lookupKey env.cfg aspect = some (Json.obj fs)
  · obtain ⟨fs, hfs⟩ := h
    rw [get_aspect_cfg_of_obj hfs]
    exact ⟨rfl, rfl, rfl, fun a _ => rfl⟩
  · push_neg at h
    rw [get_aspect_cfg_heal h]
    exact ⟨rfl, rfl, rfl, fun a ha => lookupKey_objSet_ne _ _ _ _ ha⟩

/-- `try_get_aspect_report`, characterized by the pre-state lookup. -/
theorem try_get_aspect_report_eq (env : Environment) (aspect name : String)
    (out : Json) :
    try_get_aspect_report env aspect name out =
      match lookupAspectKey env.report aspect name with
      | some v => ((get_aspect_report env aspect).1, true, v)
      | none => ((get_aspect_report env aspect).1, false, out) := by
  rw [← get_aspect_report_snd_lookup env aspect name]
  rfl

/-! ### Calibration loop lemmas -/

/-- One unrolling of the calibration loop. -/
theorem ensure_min_niter_go_succ (min_time : ℚ) (run : ℕ → ℚ) (fuel n : ℕ) :
    ensure_min_niter_go min_time run (fuel + 1) n =
      if min_time ≤ run n then Except.ok n
      else ensure_min_niter_go min_time run fuel
        (scale_up n min_time (run n)) := rfl

/-- Scaling up from a positive elapsed time below the threshold never
decreases the iteration count. -/
theorem scale_up_ge {niter : ℕ} {min_time elapsed : ℚ}
    (hpos : 0 < elapsed) (hlt : elapsed < min_time) :
    niter ≤ scale_up niter min_time elapsed := by
  unfold scale_up
  have h1 : (1 : ℚ) ≤ min_time / elapsed := (one_le_div hpos).2 hlt.le
  have h2 : (niter : ℚ) ≤ (niter : ℚ) * (min_time / elapsed) :=
    le_mul_of_one_le_right (by positivity) h1
  have h4 : (niter : ℤ) ≤ ⌈(niter : ℚ) * min_time / elapsed⌉ := by
    rw [mul_div_assoc]
    calc (niter : ℤ) = ⌈((niter : ℚ))⌉ := by simp
    _ ≤ _ := Int.ceil_mono h2
  calc niter = ((niter : ℤ)).toNat := by simp
  _ ≤ _ := Int.toNat_le_toNat h4

/-- Invariant of the calibration loop: it either returns an iteration count
no smaller than the start that meets the threshold, or exhausts its retry
budget with a calibration failure. -/
theorem ensure_min_niter_go_spec (min_time : ℚ) (run : ℕ → ℚ) (lo : ℕ)
    (hrun : ∀ m, lo ≤ m → 0 < run m) :
    ∀ fuel n, lo ≤ n →
      (∃ n', ensure_min_niter_go min_time run fuel n = Except.ok n'
          ∧ n ≤ n' ∧ min_time ≤ run n')
      ∨ ensure_min_niter_go min_time run fuel n =
          Except.error EnvError.calibration := by
  intro fuel
  induction fuel with
  | zero => intro n _; right; rfl
  | succ fuel ih =>
    intro n hn
    by_cases hel : min_time ≤ run n
    · exact Or.inl ⟨n, by rw [ensure_min_niter_go_succ, if_pos hel], le_refl n, hel⟩
    · have hpos : 0 < run n := hrun n hn
      have hlt : run n < min_time := lt_of_not_le hel
      have hscale : n ≤ scale_up n min_time (run n) := scale_up_ge hpos hlt
      have hstep : ensure_min_niter_go min_time run (fuel + 1) n =
          ensure_min_niter_go min_time run fuel (scale_up n min_time (run n)) := by
        rw [ensure_min_niter_go_succ, if_neg hel]
      rcases ih (scale_up n min_time (run n)) (le_trans hn hscale) with
        ⟨n', h1, h2, h3⟩ | h1
      · exact Or.inl ⟨n', by rw [hstep]; exact h1, le_trans hscale h2, h3⟩
      · exact Or.inr (by rw [hstep]; exact h1)

/-- The spec's end-to-end scenario (§8): `n` initialized to 1, `run`
reporting `10·n` microseconds, threshold 1000 µs — calibration stops with
`n = 100`. -/
theorem ensure_min_niter_scenario :
    ensure_min_niter 1000 1 (fun n => 10 * n) = Except.ok 100 := by
  have h2 : scale_up 1 1000 10 = 100 := by
    norm_num [scale_up]
    rfl
  rw [ensure_min_niter, max_calib_retry,
    show (100 : ℕ) = 99 + 1 from rfl, ensure_min_niter_go_succ]
  norm_num
  rw [h2, show (99 : ℕ) = 98 + 1 from rfl, ensure_min_niter_go_succ]
  norm_num

/-! ### Claim theorems -/

/-- C1: for every aspect (the current one), key name and numeric default,
`cfg_num` called twice with the same arguments returns the same value both
times and the second call leaves the environment exactly as the first call
left it; when the key is present and numeric the stored value is returned
(and nothing changes), otherwise the default is inserted at that key and
returned. -/
theorem cfg_num_idempotent_and_heals (env : Environment) (name : String)
    (d : ℚ) :
    cfg_num (cfg_num env name d).1 name d = cfg_num env name d
    ∧ (∀ v, lookupAspectKey env.cfg env.cur_aspect name = some v →
        v.is_num = true → cfg_num env name d = (env, v.asNum))
    ∧ ((∀ v, lookupAspectKey env.cfg env.cur_aspect name = some v →
        v.is_num = false) →
        (cfg_num env name d).2 = d
        ∧ lookupAspectKey (cfg_num env name d).1.cfg env.cur_aspect name
            = some (Json.num d)) := by
  refine ⟨?_, ?_, ?_⟩
  · by_cases hnum : ∃ v, lookupAspectKey env.cfg env.cur_aspect name = some v
        ∧ v.is_num = true
    · obtain ⟨v, hv, hn⟩ := hnum
      obtain ⟨fs, hw, hk⟩ := lookupAspectKey_some hv
      have h1 := cfg_num_of_num hw hk hn d
      rw [h1]
      exact cfg_num_of_num hw hk hn d
    · push_neg at hnum
      have h' : ∀ v, lookupAspectKey env.cfg env.cur_aspect name = some v →
          v.is_num = false := by
        intro v hv
        by_contra hb
        exact absurd (eq_true_of_ne_false hb) (by simpa using hnum v hv)
      have h1 := cfg_num_heal h' d
      rw [h1]
      have hc : (get_cfg env).1.cur_aspect = env.cur_aspect :=
        (get_aspect_cfg_fst_frame env env.cur_aspect).2.1
      have hw : lookupKey
          ({ (get_cfg env).1 with
              cfg := objSet (get_cfg env).1.cfg env.cur_aspect
                (Json.obj (objSet (get_cfg env).2.objFields name
                  (Json.num d))) } : Environment).cfg
          ({ (get_cfg env).1 with
              cfg := objSet (get_cfg env).1.cfg env.cur_aspect
                (Json.obj (objSet (get_cfg env).2.objFields name
                  (Json.num d))) } : Environment).cur_aspect
          = some (Json.obj (objSet (get_cfg env).2.objFields name
              (Json.num d))) := by
        show lookupKey (objSet (get_cfg env).1.cfg env.cur_aspect _)
            (get_cfg env).1.cur_aspect = _
        rw [hc]
        exact lookupKey_objSet_self _ _ _
      have h2 := cfg_num_of_num hw (lookupKey_objSet_self _ name (Json.num d))
        rfl d
      exact h2
  · intro v hv hn
    obtain ⟨fs, hw, hk⟩ := lookupAspectKey_some hv
    exact cfg_num_of_num hw hk hn d
  · intro h
    have h1 := cfg_num_heal h d
    constructor
    · rw [h1]
    · rw [h1]
      show lookupAspectKey (objSet (get_cfg env).1.cfg env.cur_aspect _)
        env.cur_aspect name = _
      rw [lookupAspectKey_of_obj (lookupKey_objSet_self _ _ _)]
      exact lookupKey_objSet_self _ _ _

/-- C1 witness: a present numeric key is returned unchanged, and after a
heal the second call agrees with the first. -/
theorem cfg_num_idempotent_and_heals_witness :
    cfg_num ⟨["x"], "x", [("x", Json.obj [("iters", Json.num 100)])], []⟩
        "iters" 7
      = (⟨["x"], "x", [("x", Json.obj [("iters", Json.num 100)])], []⟩,
         (100 : ℚ)) :=
  (cfg_num_idempotent_and_heals
    ⟨["x"], "x", [("x", Json.obj [("iters", Json.num 100)])], []⟩ "iters"
    7).2.1 (Json.num 100) rfl rfl

/-- C2: if the Report Document holds `"Done": true` under aspect `name` when
`report_started_lazy` is called (and the aspect is not a duplicate start),
the call returns the skip signal `true` and performs no write to the report
document; if `"Done"` is absent or `false` it returns the must-run signal
`false`. -/
theorem report_started_lazy_skip_correct (env : Environment) (name : String)
    (h : name ∉ env.aspects_started) :
    (lookupAspectKey env.report name "Done" = some (Json.bool true) →
      ∃ env', report_started_lazy env name = Except.ok (env', true)
        ∧ env'.report = env.report)
    ∧ ((lookupAspectKey env.report name "Done" = none ∨
        lookupAspectKey env.report name "Done" = some (Json.bool false)) →
      ∃ env', report_started_lazy env name = Except.ok (env', false)) := by
  have hs : report_started env name = Except.ok
      { env with aspects_started := name :: env.aspects_started,
                 cur_aspect := name } := by
    unfold report_started
    rw [if_neg h]
  constructor
  · intro hd
    refine ⟨⟨name :: env.aspects_started, name, env.cfg, env.report⟩, ?_, rfl⟩
    simp [report_started_lazy, hs, doneFlag, hd, Except.map]
  · intro hd
    refine ⟨⟨name :: env.aspects_started, name, env.cfg, env.report⟩, ?_⟩
    rcases hd with hd | hd <;>
      simp [report_started_lazy, hs, doneFlag, hd, Except.map]

/-- C2 witness: with `"Done": true` stored under `"A"`, a fresh lazy start
signals skip and the report document is untouched. -/
theorem report_started_lazy_skip_correct_witness :
    ∃ env', report_started_lazy
        ⟨[], "", [], [("A", Json.obj [("Done", Json.bool true)])]⟩ "A"
      = Except.ok (env', true)
      ∧ env'.report = [("A", Json.obj [("Done", Json.bool true)])] :=
  (report_started_lazy_skip_correct
    ⟨[], "", [], [("A", Json.obj [("Done", Json.bool true)])]⟩ "A"
    (by simp)).1 rfl

/-- C3: for every timing function positive on the reachable iteration
counts, `ensure_min_niter` terminates with either a normal return — a final
count never below the initial one at which the (pure) timing function meets
the threshold, so the next invocation at that count yields
`elapsed ≥ min_time` — or, when the capped number of scale-up retries is
exceeded, a `CalibrationError`, never an endless loop. -/
theorem ensure_min_niter_terminates (min_time : ℚ) (niter : ℕ) (run : ℕ → ℚ)
    (hrun : ∀ m, niter ≤ m → 0 < run m) :
    (∃ n', ensure_min_niter min_time niter run = Except.ok n'
        ∧ niter ≤ n' ∧ min_time ≤ run n')
    ∨ ensure_min_niter min_time niter run =
        Except.error EnvError.calibration :=
  ensure_min_niter_go_spec min_time run niter hrun max_calib_retry niter
    (le_refl niter)

/-- C3 witness: a constant 1000 µs timing function meets a 1000 µs threshold
at once, keeping the initial count. -/
theorem ensure_min_niter_terminates_witness :
    (∃ n', ensure_min_niter 1000 5 (fun _ => 1000) = Except.ok n'
        ∧ 5 ≤ n' ∧ (1000 : ℚ) ≤ (fun _ : ℕ => (1000 : ℚ)) n')
    ∨ ensure_min_niter 1000 5 (fun _ => 1000) =
        Except.error EnvError.calibration :=
  ensure_min_niter_terminates 1000 5 (fun _ => 1000) (fun _ _ => by norm_num)

/-- C4: `check_dep` fails with `MissingDependencyError` exactly when the
aspect is not in the started-set — regardless of the report document, which
it never consults — and succeeds without any effect when it is. -/
theorem check_dep_guard (env : Environment) (name : String) :
    (check_dep env name = Except.error EnvError.missingDependency ↔
      name ∉ env.aspects_started)
    ∧ (name ∈ env.aspects_started → check_dep env name = Except.ok env) := by
  unfold check_dep
  by_cases h : name ∈ env.aspects_started <;> simp [h]

/-- C4 witness: `"B"` started in this run passes the guard even with an
empty report; `"C"` never started fails even though its report is
complete. -/
theorem check_dep_guard_witness :
    check_dep ⟨["B"], "B", [], []⟩ "B" = Except.ok ⟨["B"], "B", [], []⟩
    ∧ check_dep ⟨["B"], "B", [],
        [("C", Json.obj [("Done", Json.bool true)])]⟩ "C"
      = Except.error EnvError.missingDependency :=
  ⟨(check_dep_guard ⟨["B"], "B", [], []⟩ "B").2 (by simp),
   (check_dep_guard ⟨["B"], "B", [],
      [("C", Json.obj [("Done", Json.bool true)])]⟩ "C").1.2 (by simp)⟩

/-- C5: `report_started` fails with `DuplicateAspectError` when the aspect
is already in the started-set; otherwise it adds the aspect to the
started-set and makes it the current-aspect cursor, touching nothing
else. -/
theorem report_started_transition (env : Environment) (name : String) :
    (name ∈ env.aspects_started →
      report_started env name = Except.error EnvError.duplicateAspect)
    ∧ (name ∉ env.aspects_started →
      report_started env name = Except.ok
        { env with aspects_started := name :: env.aspects_started,
                   cur_aspect := name }) := by
  unfold report_started
  by_cases h : name ∈ env.aspects_started <;> simp [h]

/-- C5 witness: starting `"x"` fresh records it and sets the cursor;
starting it again is a duplicate error. -/
theorem report_started_transition_witness :
    report_started ⟨[], "", [], []⟩ "x"
      = Except.ok ⟨["x"], "x", [], []⟩
    ∧ report_started ⟨["x"], "x", [], []⟩ "x"
      = Except.error EnvError.duplicateAspect :=
  ⟨(report_started_transition ⟨[], "", [], []⟩ "x").2 (by simp),
   (report_started_transition ⟨["x"], "x", [], []⟩ "x").1 (by simp)⟩

/-- C6: after `get_aspect_cfg` (resp. `get_aspect_report`) the entry stored
under the aspect is an object; when it was already an object the call
changes nothing and returns it; when it was absent or not an object it is
replaced in place by an empty object, every other aspect's entry being left
untouched. -/
theorem get_aspect_self_healing (env : Environment) (aspect : String) :
    ((∃ fs, lookupKey (get_aspect_cfg env aspect).1.cfg aspect
        = some (Json.obj fs))
      ∧ (∀ fs, lookupKey env.cfg aspect = some (Json.obj fs) →
          get_aspect_cfg env aspect = (env, Json.obj fs))
      ∧ ((∀ fs, lookupKey env.cfg aspect ≠ some (Json.obj fs)) →
          lookupKey (get_aspect_cfg env aspect).1.cfg aspect
            = some (Json.obj [])
          ∧ (get_aspect_cfg env aspect).2 = Json.obj []
          ∧ ∀ a, a ≠ aspect →
              lookupKey (get_aspect_cfg env aspect).1.cfg a
                = lookupKey env.cfg a))
    ∧ ((∃ fs, lookupKey (get_aspect_report env aspect).1.report aspect
        = some (Json.obj fs))
      ∧ (∀ fs, lookupKey env.report aspect = some (Json.obj fs) →
          get_aspect_report env aspect = (env, Json.obj fs))
      ∧ ((∀ fs, lookupKey env.report aspect ≠ some (Json.obj fs)) →
          lookupKey (get_aspect_report env aspect).1.report aspect
            = some (Json.obj [])
          ∧ (get_aspect_report env aspect).2 = Json.obj []
          ∧ ∀ a, a ≠ aspect →
              lookupKey (get_aspect_report env aspect).1.report a
                = lookupKey env.report a)) := by
  constructor
  · refine ⟨?_, fun fs hfs => get_aspect_cfg_of_obj hfs, fun h => ?_⟩
    · by_cases h : ∃ fs, lookupKey env.cfg aspect = some (Json.obj fs)
      · obtain ⟨fs, hfs⟩ := h
        rw [get_aspect_cfg_of_obj hfs]
        exact ⟨fs, hfs⟩
      · push_neg at h
        rw [get_aspect_cfg_heal h]
        exact ⟨[], by simp⟩
    · rw [get_aspect_cfg_heal h]
      exact ⟨by simp, rfl, fun a ha => lookupKey_objSet_ne _ _ _ _ ha⟩
  · refine ⟨?_, fun fs hfs => get_aspect_report_of_obj hfs, fun h => ?_⟩
    · by_cases h : ∃ fs, lookupKey env.report aspect = some (Json.obj fs)
      · obtain ⟨fs, hfs⟩ := h
        rw [get_aspect_report_of_obj hfs]
        exact ⟨fs, hfs⟩
      · push_neg at h
        rw [get_aspect_report_heal h]
        exact ⟨[], by simp⟩
    · rw [get_aspect_report_heal h]
      exact ⟨by simp, rfl, fun a ha => lookupKey_objSet_ne _ _ _ _ ha⟩

/-- C6 witness: a valid object entry is returned unchanged; a numeric entry
in the report document is healed to the empty object. -/
theorem get_aspect_self_healing_witness :
    get_aspect_cfg ⟨[], "x", [("x", Json.obj [("k", Json.num 1)])], []⟩ "x"
      = (⟨[], "x", [("x", Json.obj [("k", Json.num 1)])], []⟩,
         Json.obj [("k", Json.num 1)])
    ∧ lookupKey (get_aspect_report
        ⟨[], "x", [], [("x", Json.num 3)]⟩ "x").1.report "x"
      = some (Json.obj []) := by
  constructor
  · exact (get_aspect_self_healing
      ⟨[], "x", [("x", Json.obj [("k", Json.num 1)])], []⟩ "x").1.2.1 _ rfl
  · refine ((get_aspect_self_healing
      ⟨[], "x", [], [("x", Json.num 3)]⟩ "x").2.2.2 ?_).1
    intro fs hfs
    simp [lookupKey] at hfs

/-- C7: `try_get_aspect_report` returns `true` exactly when the key exists
in the aspect's report sub-document, writes the stored value through `out`
in that case, and leaves `out` unmodified when it returns `false`. -/
theorem try_get_aspect_report_lookup (env : Environment)
    (aspect name : String) (out : Json) :
    ((try_get_aspect_report env aspect name out).2.1 = true ↔
      (lookupAspectKey env.report aspect name).isSome = true)
    ∧ ((try_get_aspect_report env aspect name out).2.1 = false →
      (try_get_aspect_report env aspect name out).2.2 = out)
    ∧ (∀ v, lookupAspectKey env.report aspect name = some v →
      (try_get_aspect_report env aspect name out).2.1 = true
      ∧ (try_get_aspect_report env aspect name out).2.2 = v) := by
  rw [try_get_aspect_report_eq]
  cases h : lookupAspectKey env.report aspect name with
  | some v => simp
  | none => simp

/-- C7 witness: a present key is found and written through; an absent key
reports `false` and leaves `out` at its prior value. -/
theorem try_get_aspect_report_lookup_witness :
    (try_get_aspect_report ⟨[], "x", [],
        [("x", Json.obj [("nwarp", Json.num 8)])]⟩ "x" "nwarp"
        (Json.num 0)).2
      = (true, Json.num 8)
    ∧ (try_get_aspect_report ⟨[], "x", [],
        [("x", Json.obj [("nwarp", Json.num 8)])]⟩ "x" "absent"
        (Json.num 0)).2.2
      = Json.num 0 := by
  constructor
  · have h := (try_get_aspect_report_lookup ⟨[], "x", [],
      [("x", Json.obj [("nwarp", Json.num 8)])]⟩ "x" "nwarp"
      (Json.num 0)).2.2 (Json.num 8) rfl
    exact Prod.ext h.1 h.2
  · exact (try_get_aspect_report_lookup ⟨[], "x", [],
      [("x", Json.obj [("nwarp", Json.num 8)])]⟩ "x" "absent"
      (Json.num 0)).2.1 rfl

/-- C8: `must_get_aspect_report` fails with `MissingReportError` exactly
when the key is absent from the aspect's report sub-document, and otherwise
returns the stored value — the value a successful `try_get_aspect_report`
writes through. -/
theorem must_get_aspect_report_missing (env : Environment)
    (aspect name : String) :
    (must_get_aspect_report env aspect name
        = Except.error EnvError.missingReport ↔
      lookupAspectKey env.report aspect name = none)
    ∧ (∀ v, lookupAspectKey env.report aspect name = some v →
      must_get_aspect_report env aspect name =
        Except.ok ((try_get_aspect_report env aspect name Json.null).1, v)) := by
  unfold must_get_aspect_report
  rw [try_get_aspect_report_eq]
  cases h : lookupAspectKey env.report aspect name with
  | some v => simp [try_get_aspect_report_eq, h]
  | none => simp

/-- C8 witness: an absent key raises the missing-report failure; a present
key's stored value is returned. -/
theorem must_get_aspect_report_missing_witness :
    must_get_aspect_report ⟨[], "x", [],
        [("x", Json.obj [("nwarp", Json.num 8)])]⟩ "x" "absent"
      = Except.error EnvError.missingReport
    ∧ must_get_aspect_report ⟨[], "x", [],
        [("x", Json.obj [("nwarp", Json.num 8)])]⟩ "x" "nwarp"
      = Except.ok (⟨[], "x", [], [("x", Json.obj [("nwarp", Json.num 8)])]⟩,
          Json.num 8) :=
  ⟨(must_get_aspect_report_missing ⟨[], "x", [],
      [("x", Json.obj [("nwarp", Json.num 8)])]⟩ "x" "absent").1.2 rfl,
   (must_get_aspect_report_missing ⟨[], "x", [],
      [("x", Json.obj [("nwarp", Json.num 8)])]⟩ "x" "nwarp").2
      (Json.num 8) rfl⟩

/-- C9: `report_ready` writes the boolean under the reserved key `"Done"` in
the current aspect's report sub-document, leaves the current-aspect cursor
unchanged, and leaves every other aspect's sub-document and every other key
of the current aspect's sub-document unchanged. -/
theorem report_ready_frame (env : Environment) (d : Bool) :
    (report_ready env d).cur_aspect = env.cur_aspect
    ∧ (∀ a, a ≠ env.cur_aspect →
        lookupKey (report_ready env d).report a = lookupKey env.report a)
    ∧ lookupAspectKey (report_ready env d).report env.cur_aspect "Done"
        = some (Json.bool d)
    ∧ (∀ fs k, lookupKey env.report env.cur_aspect = some (Json.obj fs) →
        k ≠ "Done" →
        lookupAspectKey (report_ready env d).report env.cur_aspect k
          = lookupKey fs k) := by
  have hfr := get_aspect_report_fst_frame env env.cur_aspect
  refine ⟨?_, fun a ha => ?_, ?_, fun fs k hw hk => ?_⟩
  · show (get_report env).1.cur_aspect = env.cur_aspect
    exact hfr.2.1
  · show lookupKey (objSet (get_report env).1.report env.cur_aspect _) a
      = lookupKey env.report a
    rw [lookupKey_objSet_ne _ _ _ _ ha]
    exact hfr.2.2.2 a ha
  · show lookupAspectKey (objSet (get_report env).1.report env.cur_aspect
      (Json.obj (objSet (get_report env).2.objFields "Done" (Json.bool d))))
      env.cur_aspect "Done" = some (Json.bool d)
    rw [lookupAspectKey_of_obj (lookupKey_objSet_self _ _ _)]
    exact lookupKey_objSet_self _ _ _
  · have hg : get_report env = (env, Json.obj fs) :=
      get_aspect_report_of_obj hw
    show lookupAspectKey (objSet (get_report env).1.report env.cur_aspect
      (Json.obj (objSet (get_report env).2.objFields "Done" (Json.bool d))))
      env.cur_aspect k = lookupKey fs k
    rw [hg, lookupAspectKey_of_obj (lookupKey_objSet_self _ _ _)]
    exact lookupKey_objSet_ne _ _ _ _ hk

/-- C9 witness: finalizing aspect `"x"` sets its `"Done"` flag, keeps the
cursor, and preserves both another aspect's entry and another key of
`"x"`. -/
theorem report_ready_frame_witness :
    (report_ready ⟨["x"], "x", [],
        [("x", Json.obj [("res", Json.num 5)]), ("y", Json.num 1)]⟩
        true).cur_aspect = "x"
    ∧ lookupKey (report_ready ⟨["x"], "x", [],
        [("x", Json.obj [("res", Json.num 5)]), ("y", Json.num 1)]⟩
        true).report "y" = some (Json.num 1)
    ∧ lookupAspectKey (report_ready ⟨["x"], "x", [],
        [("x", Json.obj [("res", Json.num 5)]), ("y", Json.num 1)]⟩
        true).report "x" "Done" = some (Json.bool true)
    ∧ lookupAspectKey (report_ready ⟨["x"], "x", [],
        [("x", Json.obj [("res", Json.num 5)]), ("y", Json.num 1)]⟩
        true).report "x" "res" = some (Json.num 5) := by
  have h := report_ready_frame ⟨["x"], "x", [],
    [("x", Json.obj [("res", Json.num 5)]), ("y", Json.num 1)]⟩ true
  refine ⟨h.1, ?_, h.2.2.1, ?_⟩
  · rw [h.2.1 "y" (by simp)]
    rfl
  · rw [h.2.2.2 [("res", Json.num 5)] "res" rfl (by simp)]
    rfl

/-- C10: `clear_aspect_report` with the empty aspect name leaves the whole
environment unchanged (no self-healing happens); for a non-empty aspect
name it resets that aspect's report sub-document to the empty object,
leaving every other aspect's entry, the configuration document, the cursor
and the started-set unchanged. -/
theorem clear_aspect_report_frame (env : Environment) (aspect : String) :
    (aspect = "" → clear_aspect_report env aspect = env)
    ∧ (aspect ≠ "" →
        lookupKey (clear_aspect_report env aspect).report aspect
          = some (Json.obj [])
        ∧ (∀ a, a ≠ aspect →
            lookupKey (clear_aspect_report env aspect).report a
              = lookupKey env.report a)
        ∧ (clear_aspect_report env aspect).cfg = env.cfg
        ∧ (clear_aspect_report env aspect).cur_aspect = env.cur_aspect
        ∧ (clear_aspect_report env aspect).aspects_started
            = env.aspects_started) := by
  constructor
  · intro h
    simp [clear_aspect_report, h]
  · intro h
    have hfr := get_aspect_report_fst_frame env aspect
    have hun : clear_aspect_report env aspect =
        { (get_aspect_report env aspect).1 with
            report := objSet (get_aspect_report env aspect).1.report aspect
              (Json.obj []) } := by
      unfold clear_aspect_report
      rw [if_neg h]
    rw [hun]
    refine ⟨by simp, fun a ha => ?_, hfr.1, hfr.2.1, hfr.2.2.1⟩
    show lookupKey (objSet (get_aspect_report env aspect).1.report aspect
      (Json.obj [])) a = lookupKey env.report a
    rw [lookupKey_objSet_ne _ _ _ _ ha]
    exact hfr.2.2.2 a ha

/-- C10 witness: clearing the empty name is a silent no-op even on a
malformed document; clearing `"x"` empties its sub-document and keeps
`"y"`. -/
theorem clear_aspect_report_frame_witness :
    clear_aspect_report ⟨[], "", [], [("x", Json.num 3)]⟩ ""
      = ⟨[], "", [], [("x", Json.num 3)]⟩
    ∧ lookupKey (clear_aspect_report ⟨[], "", [],
        [("x", Json.obj [("Done", Json.bool true)]), ("y", Json.num 1)]⟩
        "x").report "x" = some (Json.obj [])
    ∧ lookupKey (clear_aspect_report ⟨[], "", [],
        [("x", Json.obj [("Done", Json.bool true)]), ("y", Json.num 1)]⟩
        "x").report "y" = some (Json.num 1) := by
  have h := clear_aspect_report_frame ⟨[], "", [],
    [("x", Json.obj [("Done", Json.bool true)]), ("y", Json.num 1)]⟩ "x"
  refine ⟨(clear_aspect_report_frame ⟨[], "", [],
    [("x", Json.num 3)]⟩ "").1 rfl, (h.2 (by simp)).1, ?_⟩
  rw [(h.2 (by simp)).2.1 "y" (by simp)]
  rfl

end ArchProbe
